import Mathlib

/-!
Verification of the crypto market fetcher / change-percent filter
(src/crypt/market-fetcher/market-query.py).

Shallow embedding conventions:
- Python floats are modelled as rationals.
- A Python dict is an association list with distinct keys; a value that
  can be None or an absent key is an Option (the source treats the two
  alike wherever it reads these fields, via "field not in info or
  info[field] is None" and dict construction).
- Network effects are parameters: the quotes/latest response is an
  "Except FetchError QuoteResponse" argument, and historical prices are
  an oracle function from symbol and days-ago to an optional price
  (get_historical_price returns the price or None, also on errors).
- Console printing is modelled only where a claim depends on it: the
  "Invalid period" report of change_percent_filter is a boolean in its
  outcome, and get_crypto_data returning none stands for "error printed,
  None returned".
-/

/-- One USD quote object, crypto['quote']['USD'] in the response of the
quotes/latest endpoint. Numeric fields may be null. -/
structure Quote where
  price : Option ℚ
  volume_24h : Option ℚ
  percent_change_24h : Option ℚ
  percent_change_7d : Option ℚ
  percent_change_30d : Option ℚ
  market_cap : Option ℚ
  last_updated : String
deriving DecidableEq

/-- One entry of data['data'] in the quotes/latest response. -/
structure CryptoInfo where
  name : String
  symbol : String
  quote : Quote
deriving DecidableEq

/-- The data['data'] mapping of the quotes/latest response: an
association list from symbol to CryptoInfo (dict, so keys distinct). -/
abbrev QuoteResponse := List (String × CryptoInfo)

/-- Transport/protocol failures of a request, the cases caught by the
"except requests.exceptions.RequestException" handlers (network error,
bad HTTP status from raise_for_status, malformed JSON body). -/
inductive FetchError where
  | network
  | badStatus (code : ℕ)
  | malformedJson
deriving DecidableEq

/-- The per-asset record dict built at lines 49-59 and later mutated by
get_complete_data. Keys that the source leaves absent before enrichment
(the price_*_ago and change_*_percent keys) are none here; after
enrichment the price_*_ago keys hold the oracle's optional price and the
change_*_percent keys are some exactly when the source sets them. -/
structure AssetRecord where
  name : String
  symbol : String
  current_price : Option ℚ
  volume_24h : Option ℚ
  percent_change_24h : Option ℚ
  percent_change_7d : Option ℚ
  percent_change_30d : Option ℚ
  market_cap : Option ℚ
  last_updated : String
  price_1_month_ago : Option ℚ := none
  price_3_months_ago : Option ℚ := none
  price_6_months_ago : Option ℚ := none
  change_1m_percent : Option ℚ := none
  change_3m_percent : Option ℚ := none
  change_6m_percent : Option ℚ := none
deriving DecidableEq

/-- The initial record for one symbol, lines 49-59 of the source. -/
def mkRecord (crypto : CryptoInfo) : AssetRecord where
  name := crypto.name
  symbol := crypto.symbol
  current_price := crypto.quote.price
  volume_24h := crypto.quote.volume_24h
  percent_change_24h := crypto.quote.percent_change_24h
  percent_change_7d := crypto.quote.percent_change_7d
  percent_change_30d := crypto.quote.percent_change_30d
  market_cap := crypto.quote.market_cap
  last_updated := crypto.quote.last_updated

/-- Line 44 of the source: the market-cap exclusion test
"min_market_cap is not None and market_cap is not None and
market_cap < min_market_cap". -/
def filteredOut (min_market_cap market_cap : Option ℚ) : Bool :=
  match min_market_cap, market_cap with
  | some t, some c => decide (c < t)
  | _, _ => false

/-- Python dict assignment d[k] = v on an association list: replace in
place when the key exists, append otherwise. -/
def dictInsert (d : List (String × AssetRecord)) (k : String) (v : AssetRecord) :
    List (String × AssetRecord) :=
  if d.any (fun p => p.1 == k) then
    d.map (fun p => if p.1 == k then (k, v) else p)
  else d ++ [(k, v)]

/-- One iteration of the loop at lines 37-59: skip a symbol missing from
the response, count a record excluded by the market-cap filter, insert
the built record otherwise. -/
def buildStep (data : QuoteResponse) (mmc : Option ℚ)
    (acc : List (String × AssetRecord) × ℕ) (symbol : String) :
    List (String × AssetRecord) × ℕ :=
  match data.lookup symbol with
  | none => acc
  | some crypto =>
    if filteredOut mmc crypto.quote.market_cap then (acc.1, acc.2 + 1)
    else (dictInsert acc.1 symbol (mkRecord crypto), acc.2)

/-- The loop at lines 37-59 over the requested symbols. -/
def buildLoop (data : QuoteResponse) (mmc : Option ℚ) :
    List String → List (String × AssetRecord) × ℕ → List (String × AssetRecord) × ℕ
  | [], acc => acc
  | symbol :: rest, acc => buildLoop data mmc rest (buildStep data mmc acc symbol)

/-- CryptoDataFetcher.get_crypto_data. The response argument stands for
the outcome of the quotes/latest request; on a FetchError the source
prints the error and returns None (modelled none). On success it returns
the results dict; the filtered count (printed at line 62) is kept in the
pair so its value is part of the model. -/
def get_crypto_data (resp : Except FetchError QuoteResponse)
    (symbols : List String) (min_market_cap : Option ℚ) :
    Option (List (String × AssetRecord) × ℕ) :=
  match resp with
  | .error _ => none
  | .ok data => some (buildLoop data min_market_cap symbols ([], 0))

/-- Python truthiness of an optional float: None and 0.0 are falsy. -/
def truthy : Option ℚ → Bool
  | none => false
  | some x => decide (x ≠ 0)

/-- The percent-change formula of lines 135/137/139. -/
def pctChange (current past : ℚ) : ℚ := (current - past) / past * 100

/-- Lines 120-139: fetch the three historical prices for one symbol and
derive the change percentages. The source reads current_price directly;
a null current_price would raise TypeError there, so the getD 0 default
is never exercised on the paths the theorems below describe (they assume
a present current_price, as every claim does). When a historical price
is falsy the source leaves the change key untouched (absent on records
fresh from get_crypto_data). -/
def enrichRecord (hist : String → ℕ → Option ℚ) (symbol : String) (r : AssetRecord) :
    AssetRecord :=
  let price_1m := hist symbol 30
  let price_3m := hist symbol 90
  let price_6m := hist symbol 180
  let current_price := r.current_price.getD 0
  { r with
    price_1_month_ago := price_1m
    price_3_months_ago := price_3m
    price_6_months_ago := price_6m
    change_1m_percent :=
      if truthy price_1m then some (pctChange current_price (price_1m.getD 0))
      else r.change_1m_percent
    change_3m_percent :=
      if truthy price_3m then some (pctChange current_price (price_3m.getD 0))
      else r.change_3m_percent
    change_6m_percent :=
      if truthy price_6m then some (pctChange current_price (price_6m.getD 0))
      else r.change_6m_percent }

/-- CryptoDataFetcher.get_complete_data, lines 104-141. "if not
current_data: return None" makes both a fetch failure and an empty dict
yield None; otherwise each requested symbol present in the dict is
enriched in place. -/
def get_complete_data (resp : Except FetchError QuoteResponse)
    (hist : String → ℕ → Option ℚ) (symbols : List String)
    (min_market_cap : Option ℚ) : Option (List (String × AssetRecord)) :=
  match get_crypto_data resp symbols min_market_cap with
  | none => none
  | some (current_data, _) =>
    if current_data.isEmpty then none
    else some (symbols.foldl (fun d symbol =>
      if d.any (fun p => p.1 == symbol) then
        d.map (fun p => if p.1 == symbol then (p.1, enrichRecord hist symbol p.2) else p)
      else d) current_data)

/-- Python str.strip with a single-character argument: remove every copy
of that character from both ends. -/
def stripChar (c : Char) (s : String) : String :=
  String.mk (((s.data.dropWhile (fun d => d == c)).reverse.dropWhile (fun d => d == c)).reverse)

/-- Value of a digit string, most significant first. -/
def digitsVal (l : List Char) : ℕ :=
  l.foldl (fun n c => n * 10 + (c.toNat - 48)) 0

/-- Unsigned part of Python float(): digits with an optional fractional
part, at least one digit overall. -/
def parseUnsigned (l : List Char) : Option ℚ :=
  let intPart := l.takeWhile Char.isDigit
  let rest := l.dropWhile Char.isDigit
  match rest with
  | [] => if intPart.isEmpty then none else some ((digitsVal intPart : ℚ))
  | '.' :: frac =>
    if frac.all Char.isDigit && !(intPart.isEmpty && frac.isEmpty) then
      some ((digitsVal intPart : ℚ) + (digitsVal frac : ℚ) / (10 : ℚ) ^ frac.length)
    else none
  | _ => none

/-- Python's builtin float() on the decimal forms this program meets:
surrounding spaces, an optional sign, digits with an optional fractional
part (exponents and the inf/nan spellings are outside the model). A none
result stands for the ValueError float() raises. -/
def parsePyFloat (s : String) : Option ℚ :=
  match (stripChar ' ' s).data with
  | '-' :: rest => (parseUnsigned rest).map Neg.neg
  | '+' :: rest => parseUnsigned rest
  | l => parseUnsigned l

/-- The period_map dict of lines 202-209. -/
def period_map : List (String × String) :=
  [("24h", "percent_change_24h"), ("7d", "percent_change_7d"),
   ("30d", "percent_change_30d"), ("1m", "change_1m_percent"),
   ("3m", "change_3m_percent"), ("6m", "change_6m_percent")]

/-- Dynamic field access info[field] for the six fields period_map can
produce; the source reaches this only with those names. -/
def getField (info : AssetRecord) : String → Option ℚ
  | "percent_change_24h" => info.percent_change_24h
  | "percent_change_7d" => info.percent_change_7d
  | "percent_change_30d" => info.percent_change_30d
  | "change_1m_percent" => info.change_1m_percent
  | "change_3m_percent" => info.change_3m_percent
  | "change_6m_percent" => info.change_6m_percent
  | _ => none

/-- An element of the returned filtered_coins list: (symbol, info,
change_percent). -/
abbrev Selected := String × AssetRecord × ℚ

/-- How change_percent_filter can end. raised: an exception escaped (the
only such point is float() on the threshold). returned report coins: the
function returned coins, having printed the "Invalid period" error
message exactly when report is true. -/
inductive FilterOutcome where
  | raised
  | returned (invalidPeriodReported : Bool) (coins : List Selected)
deriving DecidableEq

/-- Loop body at lines 219-232: skip an absent or null field, then the
sign-dependent threshold comparison. -/
def selectCoin (threshold : ℚ) (field : String) (p : String × AssetRecord) :
    Option Selected :=
  match getField p.2 field with
  | none => none
  | some change_percent =>
    if threshold < 0 then
      if change_percent ≤ threshold then some (p.1, p.2, change_percent) else none
    else
      if change_percent ≥ threshold then some (p.1, p.2, change_percent) else none

/-- Sort order of line 235: by the selected change value. -/
def valLE (a b : Selected) : Prop := a.2.2 ≤ b.2.2

instance : DecidableRel valLE := fun a b => inferInstanceAs (Decidable (a.2.2 ≤ b.2.2))

instance : IsTotal Selected valLE := ⟨fun a b => le_total a.2.2 b.2.2⟩

instance : IsTrans Selected valLE := ⟨fun _ _ _ h1 h2 => le_trans h1 h2⟩

/-- change_percent_filter, lines 181-263, on the result of
load_crypto_data: none models a missing or unparseable file (the source
gets None back), some data models a parsed record mapping. "if not data:
return []" catches none and the empty dict before the threshold is
parsed or the period checked; float() on a malformed threshold raises;
an unrecognized period prints the invalid-period error and returns [];
otherwise the selected coins are returned sorted by change value. -/
def change_percent_filter (loadResult : Option (List (String × AssetRecord)))
    (period : String) (threshold_str : String) : FilterOutcome :=
  match loadResult with
  | none => .returned false []
  | some data =>
    if data.isEmpty then .returned false []
    else
      match parsePyFloat (stripChar '%' threshold_str) with
      | none => .raised
      | some threshold =>
        match period_map.lookup period with
        | none => .returned true []
        | some field =>
          .returned false
            (List.insertionSort valLE (data.filterMap (selectCoin threshold field)))

/-- JSON values as the json module sees them, restricted to the shapes
this program writes: null, numbers, strings and objects (an object is an
ordered association list, as Python dicts preserve insertion order). -/
inductive Json where
  | null
  | num (q : ℚ)
  | str (s : String)
  | obj (fields : List (String × Json))

/-- How an optional numeric dict value is serialized: None becomes
null. -/
def encNum : Option ℚ → Json
  | none => Json.null
  | some q => Json.num q

/-- How a conditionally-set dict key is serialized: the key is simply
absent when the source never assigned it. -/
def encChange (k : String) : Option ℚ → List (String × Json)
  | none => []
  | some q => [(k, Json.num q)]

/-- json.dump of one AssetRecord dict: keys in the insertion order of
lines 49-59 and 127-139; the price_*_ago keys always present (null when
the fetch yielded nothing), the change_*_percent keys present only when
derived. -/
def encRecord (r : AssetRecord) : Json :=
  Json.obj ([("name", Json.str r.name), ("symbol", Json.str r.symbol),
    ("current_price", encNum r.current_price), ("volume_24h", encNum r.volume_24h),
    ("percent_change_24h", encNum r.percent_change_24h),
    ("percent_change_7d", encNum r.percent_change_7d),
    ("percent_change_30d", encNum r.percent_change_30d),
    ("market_cap", encNum r.market_cap), ("last_updated", Json.str r.last_updated),
    ("price_1_month_ago", encNum r.price_1_month_ago),
    ("price_3_months_ago", encNum r.price_3_months_ago),
    ("price_6_months_ago", encNum r.price_6_months_ago)]
    ++ encChange "change_1m_percent" r.change_1m_percent
    ++ encChange "change_3m_percent" r.change_3m_percent
    ++ encChange "change_6m_percent" r.change_6m_percent)

/-- Reading an always-present optional numeric value back: null is the
absent value. -/
def decOptNum : Json → Option (Option ℚ)
  | Json.null => some none
  | Json.num q => some (some q)
  | _ => none

/-- Reading a conditionally-present numeric key back: consume the entry
when the next key matches, read absence otherwise. -/
def decChange (k : String) : List (String × Json) → Option (Option ℚ × List (String × Json))
  | [] => some (none, [])
  | (k', v) :: rest =>
    if k' = k then
      match v with
      | Json.num q => some (some q, rest)
      | _ => none
    else some (none, (k', v) :: rest)

/-- Reading a string value back. -/
def decStr : Json → Option String
  | Json.str s => some s
  | _ => none

/-- Consuming the next object member, whose key must be the one the
writer put there. -/
def decField (k : String) : List (String × Json) → Option (Json × List (String × Json))
  | [] => none
  | (k', v) :: rest => if k' = k then some (v, rest) else none

/-- Consuming the next object member as a string. -/
def decStrField (k : String) (l : List (String × Json)) :
    Option (String × List (String × Json)) :=
  match decField k l with
  | none => none
  | some (v, rest) =>
    match decStr v with
    | none => none
    | some s => some (s, rest)

/-- Consuming the next object member as an optional number. -/
def decNumField (k : String) (l : List (String × Json)) :
    Option (Option ℚ × List (String × Json)) :=
  match decField k l with
  | none => none
  | some (v, rest) =>
    match decOptNum v with
    | none => none
    | some o => some (o, rest)

/-- Reading one AssetRecord back from its JSON object. This is the
typed view of what a later run reads via json.load; in the typed model
absence and null are kept apart exactly as the writer distinguishes
them, which is the "no absent-vs-null ambiguity" proviso of the spec. -/
def decRecord : Json → Option AssetRecord
  | Json.obj l =>
    match decStrField "name" l with
    | none => none
    | some (name, l) =>
    match decStrField "symbol" l with
    | none => none
    | some (symbol, l) =>
    match decNumField "current_price" l with
    | none => none
    | some (current_price, l) =>
    match decNumField "volume_24h" l with
    | none => none
    | some (volume_24h, l) =>
    match decNumField "percent_change_24h" l with
    | none => none
    | some (percent_change_24h, l) =>
    match decNumField "percent_change_7d" l with
    | none => none
    | some (percent_change_7d, l) =>
    match decNumField "percent_change_30d" l with
    | none => none
    | some (percent_change_30d, l) =>
    match decNumField "market_cap" l with
    | none => none
    | some (market_cap, l) =>
    match decStrField "last_updated" l with
    | none => none
    | some (last_updated, l) =>
    match decNumField "price_1_month_ago" l with
    | none => none
    | some (price_1_month_ago, l) =>
    match decNumField "price_3_months_ago" l with
    | none => none
    | some (price_3_months_ago, l) =>
    match decNumField "price_6_months_ago" l with
    | none => none
    | some (price_6_months_ago, l) =>
    match decChange "change_1m_percent" l with
    | none => none
    | some (change_1m_percent, l) =>
    match decChange "change_3m_percent" l with
    | none => none
    | some (change_3m_percent, l) =>
    match decChange "change_6m_percent" l with
    | none => none
    | some (change_6m_percent, l) =>
    match l with
    | [] => some (AssetRecord.mk name symbol current_price volume_24h
        percent_change_24h percent_change_7d percent_change_30d market_cap
        last_updated price_1_month_ago price_3_months_ago price_6_months_ago
        change_1m_percent change_3m_percent change_6m_percent)
    | _ => none
  | _ => none

/-- json.dump at lines 294-295: the full record mapping serialized as
one object keyed by symbol (a full snapshot; indentation is cosmetic and
not part of the value model). -/
def saveRecords (records : List (String × AssetRecord)) : Json :=
  Json.obj (records.map (fun p => (p.1, encRecord p.2)))

/-- Reading each member of a loaded object back as a record. -/
def loadRecordsList : List (String × Json) → Option (List (String × AssetRecord))
  | [] => some []
  | (s, v) :: rest =>
    match decRecord v with
    | none => none
    | some r =>
      match loadRecordsList rest with
      | none => none
      | some tail => some ((s, r) :: tail)

/-- The typed read-back of a persisted file that parsed as JSON
(load_crypto_data's successful branch, line 172): the top-level value
must be an object whose members decode as records. -/
def loadRecords : Json → Option (List (String × AssetRecord))
  | Json.obj fields => loadRecordsList fields
  | _ => none

/-- Concrete sample data used to instantiate the theorems below. -/
def sampleQuote : Quote where
  price := some 70000
  volume_24h := some 1000
  percent_change_24h := some 2
  percent_change_7d := some (-12)
  percent_change_30d := some 5
  market_cap := some 800000000000
  last_updated := "2026-01-01T00:00:00.000Z"

/-- Sample quotes/latest entry for the sample symbol. -/
def sampleInfo : CryptoInfo where
  name := "Bitcoin"
  symbol := "BTC"
  quote := sampleQuote

/-- The record get_crypto_data builds from sampleInfo. -/
def sampleRecord : AssetRecord := mkRecord sampleInfo

/-- A historical-price oracle that knows only the 30-days-ago price. -/
def sampleHist : String → ℕ → Option ℚ :=
  fun _ days_ago => if days_ago = 30 then some 35000 else none

/-! Helper lemmas. -/

theorem decOptNum_encNum (o : Option ℚ) : decOptNum (encNum o) = some o := by
  cases o <;> rfl

theorem decRecord_encRecord (r : AssetRecord) : decRecord (encRecord r) = some r := by
  obtain ⟨n, sy, cp, vol, p24, p7, p30, mc, lu, q1, q3, q6, c1, c3, c6⟩ := r
  cases c1 <;> cases c3 <;> cases c6 <;>
    simp [encRecord, decRecord, encChange, decChange, decField, decStr,
      decStrField, decNumField, decOptNum_encNum]

theorem isEmpty_false_of_ne_nil {α : Type} {l : List α} (h : l ≠ []) :
    l.isEmpty = false := by
  cases l with
  | nil => exact absurd rfl h
  | cons a t => rfl

theorem selectCoin_eq_some {t : ℚ} {field : String} {p : String × AssetRecord}
    {x : Selected} :
    selectCoin t field p = some x ↔
      ∃ v, getField p.2 field = some v ∧ (if t < 0 then v ≤ t else t ≤ v) ∧
        x = (p.1, p.2, v) := by
  unfold selectCoin
  cases hg : getField p.2 field with
  | none => simp
  | some w =>
    by_cases ht : t < 0
    · by_cases hw : w ≤ t
      · simp [ht, hw, eq_comm]
      · simp [ht, hw]
    · by_cases hw : t ≤ w
      · simp [ht, hw, eq_comm]
      · simp [ht, hw]

/-- Claim C8: saving the full record mapping and loading it back returns
an equal record set; in the typed model every record set keeps absence
and null apart, which is the no-ambiguity proviso of the claim. -/
theorem load_save_roundtrip (records : List (String × AssetRecord)) :
    loadRecords (saveRecords records) = some records := by
  induction records with
  | nil => rfl
  | cons p rest ih =>
    obtain ⟨s, r⟩ := p
    simp only [saveRecords, loadRecords, List.map, loadRecordsList] at ih ⊢
    rw [decRecord_encRecord, ih]

/-- Claim C2: whatever change_percent_filter returns is sorted ascending
by the selected change value; every adjacent pair of the result is
ordered, whatever the sign of the threshold and on every returning
path. -/
theorem change_filter_sorted
    (loadResult : Option (List (String × AssetRecord))) (period threshold_str : String)
    (b : Bool) (coins : List Selected)
    (hrun : change_percent_filter loadResult period threshold_str
      = FilterOutcome.returned b coins) :
    List.Chain' (fun a c : Selected => a.2.2 ≤ c.2.2) coins := by
  have hnil : List.Chain' (fun a c : Selected => a.2.2 ≤ c.2.2) [] := List.chain'_nil
  unfold change_percent_filter at hrun
  split at hrun
  · injection hrun with hb hc
    subst hc
    exact hnil
  · split at hrun
    · injection hrun with hb hc
      subst hc
      exact hnil
    · split at hrun
      · cases hrun
      · split at hrun
        · injection hrun with hb hc
          subst hc
          exact hnil
        · injection hrun with hb hc
          subst hc
          exact List.Pairwise.chain' (List.sorted_insertionSort valLE _)

/-- Witness for C2 at a concrete run. -/
theorem change_filter_sorted_witness :
    List.Chain' (fun a c : Selected => a.2.2 ≤ c.2.2)
      [("BTC", sampleRecord, (-12 : ℚ))] :=
  change_filter_sorted (some [("BTC", sampleRecord)]) "7d" "-10%" false
    [("BTC", sampleRecord, -12)] (by decide)

/-- Claim C1: with a parseable threshold and a recognized period, the
returned coins are exactly the records whose mapped field is present
with a value on the threshold's side: at or below a negative threshold,
at or above a nonnegative one; records with an absent or null mapped
field never appear. -/
theorem change_filter_selection_iff
    (data : List (String × AssetRecord)) (period threshold_str field : String)
    (t : ℚ) (b : Bool) (coins : List Selected) (s : String) (info : AssetRecord) (v : ℚ)
    (hparse : parsePyFloat (stripChar '%' threshold_str) = some t)
    (hperiod : period_map.lookup period = some field)
    (hrun : change_percent_filter (some data) period threshold_str
      = FilterOutcome.returned b coins) :
    (s, info, v) ∈ coins ↔
      ((s, info) ∈ data ∧ getField info field = some v ∧
        (if t < 0 then v ≤ t else t ≤ v)) := by
  by_cases hd : data = []
  · subst hd
    have : coins = [] := by
      injection hrun with hb hc
      exact hc.symm
    subst this
    simp
  · have hred : change_percent_filter (some data) period threshold_str
        = FilterOutcome.returned false
          (List.insertionSort valLE (data.filterMap (selectCoin t field))) := by
      simp [change_percent_filter, isEmpty_false_of_ne_nil hd, hparse, hperiod]
    rw [hred] at hrun
    injection hrun with hb hc
    subst hc
    rw [List.mem_insertionSort, List.mem_filterMap]
    constructor
    · rintro ⟨p, hp, hsel⟩
      rcases selectCoin_eq_some.mp hsel with ⟨v', hget, hcond, heq⟩
      have hs : s = p.1 := congrArg Prod.fst heq
      have hi : info = p.2 := congrArg (fun x : Selected => x.2.1) heq
      have hv : v = v' := congrArg (fun x : Selected => x.2.2) heq
      subst hs
      subst hi
      subst hv
      exact ⟨hp, hget, hcond⟩
    · rintro ⟨hmem, hget, hcond⟩
      exact ⟨(s, info), hmem, selectCoin_eq_some.mpr ⟨v, hget, hcond, rfl⟩⟩

/-- Witness for C1 at a concrete run: the sample record qualifies for
the 7d drop query. -/
theorem change_filter_selection_witness :
    ("BTC", sampleRecord, (-12 : ℚ)) ∈ ([("BTC", sampleRecord, (-12 : ℚ))] : List Selected) :=
  (change_filter_selection_iff [("BTC", sampleRecord)] "7d" "-10%" "percent_change_7d"
    (-10) false [("BTC", sampleRecord, -12)] "BTC" sampleRecord (-12)
    (by decide) (by decide) (by decide)).mpr
    ⟨by decide, by decide, by decide⟩

/-- Counterexample to C6 as stated: with a loaded empty record set a
bogus period yields the early empty return with no invalid-period
report, while the claim requires the report for every loaded record
set. -/
theorem invalid_period_empty_set_counterexample :
    change_percent_filter (some ([] : List (String × AssetRecord))) "bogus" "5%"
        = FilterOutcome.returned false [] ∧
      change_percent_filter (some ([] : List (String × AssetRecord))) "bogus" "5%"
        ≠ FilterOutcome.returned true [] := by
  exact ⟨rfl, by decide⟩

/-- Claim C6 amended: for every loaded NON-EMPTY record set and
parseable threshold, an unrecognized period makes change_percent_filter
print the invalid-period error and return an empty result without
raising. -/
theorem invalid_period_reports_and_returns_empty
    (data : List (String × AssetRecord)) (period threshold_str : String) (t : ℚ)
    (hne : data ≠ [])
    (hparse : parsePyFloat (stripChar '%' threshold_str) = some t)
    (hperiod : period_map.lookup period = none) :
    change_percent_filter (some data) period threshold_str
      = FilterOutcome.returned true [] := by
  simp [change_percent_filter, isEmpty_false_of_ne_nil hne, hparse, hperiod]

/-- Witness for the amended C6 at a concrete run. -/
theorem invalid_period_reports_witness :
    change_percent_filter (some [("BTC", sampleRecord)]) "bogus" "5%"
      = FilterOutcome.returned true [] :=
  invalid_period_reports_and_returns_empty [("BTC", sampleRecord)] "bogus" "5%" 5
    (by decide) (by decide) (by decide)

/-- Claim C7: a transport/protocol failure of the quote fetch makes
get_crypto_data report and return None, and the caller get_complete_data
detects the absence and aborts with None itself. -/
theorem fetch_error_yields_absence (e : FetchError) (symbols : List String)
    (mmc : Option ℚ) (hist : String → ℕ → Option ℚ) :
    get_crypto_data (Except.error e) symbols mmc = none ∧
      get_complete_data (Except.error e) hist symbols mmc = none :=
  ⟨rfl, rfl⟩

/-- Counterexample to C9 as stated: on a non-empty loaded record set
and a recognized period, a malformed threshold makes the float
conversion raise; the exception escapes instead of being reported with
an empty result. -/
theorem malformed_threshold_counterexample :
    change_percent_filter (some [("BTC", sampleRecord)]) "7d" "abc"
      = FilterOutcome.raised := by decide

/-- Claim C9 amended: on a non-empty loaded record set, a thresholdText
with no numeric content after stripping percent signs makes
change_percent_filter raise an uncaught exception (so the process
terminates) rather than return any result. -/
theorem malformed_threshold_raises
    (data : List (String × AssetRecord)) (period threshold_str : String)
    (hne : data ≠ [])
    (hparse : parsePyFloat (stripChar '%' threshold_str) = none) :
    change_percent_filter (some data) period threshold_str = FilterOutcome.raised := by
  simp [change_percent_filter, isEmpty_false_of_ne_nil hne, hparse]

/-- Witness for the amended C9 at a concrete run. -/
theorem malformed_threshold_raises_witness :
    change_percent_filter (some [("ETH", sampleRecord)]) "24h" "ten"
      = FilterOutcome.raised :=
  malformed_threshold_raises [("ETH", sampleRecord)] "24h" "ten" (by decide) (by decide)

/-- Claim C10: when the load step yields nothing (missing or unparseable
file) or an empty mapping, change_percent_filter returns the empty list
before the threshold is parsed or the period validated, so even a
malformed threshold or a bogus period causes neither an exception nor an
invalid-period report. -/
theorem no_data_short_circuit
    (loadResult : Option (List (String × AssetRecord))) (period threshold_str : String)
    (h : loadResult = none ∨ loadResult = some []) :
    change_percent_filter loadResult period threshold_str
      = FilterOutcome.returned false [] := by
  rcases h with h | h <;> subst h <;> rfl

/-- Witness for C10: a missing file with a bogus period and malformed
threshold still returns quietly. -/
theorem no_data_short_circuit_witness :
    change_percent_filter none "bogus" "abc" = FilterOutcome.returned false [] :=
  no_data_short_circuit none "bogus" "abc" (Or.inl rfl)

theorem mem_dictInsert {d : List (String × AssetRecord)} {k : String} {v : AssetRecord}
    {x : String × AssetRecord} (h : x ∈ dictInsert d k v) : x ∈ d ∨ x = (k, v) := by
  unfold dictInsert at h
  split at h
  · rcases List.mem_map.mp h with ⟨p, hp, hpe⟩
    by_cases hk : (p.1 == k) = true
    · rw [if_pos hk] at hpe
      exact Or.inr hpe.symm
    · rw [if_neg hk] at hpe
      exact Or.inl (hpe ▸ hp)
  · rcases List.mem_append.mp h with h1 | h1
    · exact Or.inl h1
    · exact Or.inr (by simpa using h1)

theorem dictInsert_fresh {d : List (String × AssetRecord)} {k : String} {v : AssetRecord}
    (h : ∀ p ∈ d, (p : String × AssetRecord).1 ≠ k) :
    dictInsert d k v = d ++ [(k, v)] := by
  have hany : d.any (fun p => p.1 == k) = false := by
    rw [List.any_eq_false]
    intro p hp
    simpa using h p hp
  unfold dictInsert
  rw [hany]
  simp

theorem buildLoop_mem (data : QuoteResponse) (mmc : Option ℚ) (syms : List String) :
    ∀ (acc : List (String × AssetRecord) × ℕ) (s : String) (r : AssetRecord),
      (s, r) ∈ (buildLoop data mmc syms acc).1 →
      (s, r) ∈ acc.1 ∨ ∃ crypto, data.lookup s = some crypto ∧ r = mkRecord crypto ∧
        filteredOut mmc crypto.quote.market_cap = false := by
  induction syms with
  | nil =>
    intro acc s r h
    exact Or.inl h
  | cons symbol rest ih =>
    intro acc s r h
    rcases ih (buildStep data mmc acc symbol) s r h with h' | h'
    · unfold buildStep at h'
      cases hl : data.lookup symbol with
      | none =>
        simp only [hl] at h'
        exact Or.inl h'
      | some crypto =>
        simp only [hl] at h'
        by_cases hf : filteredOut mmc crypto.quote.market_cap = true
        · rw [if_pos hf] at h'
          exact Or.inl h'
        · rw [if_neg hf] at h'
          rcases mem_dictInsert h' with h'' | h''
          · exact Or.inl h''
          · have hs : s = symbol := congrArg Prod.fst h''
            have hr : r = mkRecord crypto := congrArg Prod.snd h''
            right
            refine ⟨crypto, ?_, hr, by simpa using hf⟩
            rw [hs, hl]
    · exact Or.inr h'

/-- Claim C3: a record appears in the get_crypto_data results only for a
symbol found in the quote response, and only when the market-cap filter
is off, the market cap unknown, or the market cap at least the
threshold; symbols absent from the response are silently skipped, which
is the contrapositive of the first conjunct. -/
theorem build_records_member_conditions
    (data : QuoteResponse) (symbols : List String) (mmc : Option ℚ)
    (results : List (String × AssetRecord)) (cnt : ℕ) (s : String) (r : AssetRecord)
    (hrun : get_crypto_data (Except.ok data) symbols mmc = some (results, cnt))
    (hmem : (s, r) ∈ results) :
    (data.lookup s).isSome = true ∧
      (mmc = none ∨ r.market_cap = none ∨
        ∃ tc c, mmc = some tc ∧ r.market_cap = some c ∧ tc ≤ c) := by
  injection hrun with h
  have h1 : (buildLoop data mmc symbols ([], 0)).1 = results := congrArg Prod.fst h
  rw [← h1] at hmem
  rcases buildLoop_mem data mmc symbols ([], 0) s r hmem with h' | ⟨crypto, hl, hr, hf⟩
  · simp at h'
  · constructor
    · rw [hl]
      rfl
    · have hmc : r.market_cap = crypto.quote.market_cap := by
        rw [hr]
        rfl
      rw [hmc]
      cases hmmc : mmc with
      | none => exact Or.inl rfl
      | some tc =>
        cases hmcq : crypto.quote.market_cap with
        | none => exact Or.inr (Or.inl rfl)
        | some c =>
          right
          right
          refine ⟨tc, c, rfl, rfl, ?_⟩
          rw [hmmc, hmcq] at hf
          unfold filteredOut at hf
          exact le_of_not_lt (by simpa using hf)

/-- Witness for C3 at a concrete run: the sample symbol is in the
response and passes the 5 billion market-cap filter. -/
theorem build_records_member_witness :
    ((([("BTC", sampleInfo)] : QuoteResponse).lookup "BTC").isSome = true) ∧
      ((some (5000000000 : ℚ)) = none ∨ sampleRecord.market_cap = none ∨
        ∃ tc c, (some (5000000000 : ℚ)) = some tc ∧ sampleRecord.market_cap = some c
          ∧ tc ≤ c) :=
  build_records_member_conditions [("BTC", sampleInfo)] ["BTC"] (some 5000000000)
    [("BTC", sampleRecord)] 0 "BTC" sampleRecord (by decide) (by decide)

theorem buildLoop_count (data : QuoteResponse) (mmc : Option ℚ) (syms : List String) :
    ∀ (acc : List (String × AssetRecord) × ℕ),
      syms.Nodup → (∀ p ∈ acc.1, (p : String × AssetRecord).1 ∉ syms) →
      (buildLoop data mmc syms acc).2 + (buildLoop data mmc syms acc).1.length
        = acc.2 + acc.1.length
          + (syms.filter (fun s => (data.lookup s).isSome)).length := by
  induction syms with
  | nil =>
    intro acc hnd hdis
    simp [buildLoop]
  | cons symbol rest ih =>
    intro acc hnd hdis
    rw [List.nodup_cons] at hnd
    obtain ⟨hns, hndr⟩ := hnd
    have hstep : buildLoop data mmc (symbol :: rest) acc
        = buildLoop data mmc rest (buildStep data mmc acc symbol) := rfl
    rw [hstep]
    cases hl : data.lookup symbol with
    | none =>
      have hbs : buildStep data mmc acc symbol = acc := by
        unfold buildStep
        rw [hl]
      rw [hbs]
      have hcond : ((data.lookup symbol).isSome) = false := by
        rw [hl]
        rfl
      rw [List.filter_cons, hcond]
      simp only [Bool.false_eq_true, if_false]
      exact ih acc hndr (fun p hp hin => hdis p hp (List.mem_cons_of_mem _ hin))
    | some crypto =>
      have hcond : ((data.lookup symbol).isSome) = true := by
        rw [hl]
        rfl
      rw [List.filter_cons, hcond, if_pos rfl, List.length_cons]
      by_cases hf : filteredOut mmc crypto.quote.market_cap = true
      · have hbs : buildStep data mmc acc symbol = (acc.1, acc.2 + 1) := by
          unfold buildStep
          simp only [hl]
          rw [if_pos hf]
        rw [hbs]
        have hrec := ih (acc.1, acc.2 + 1) hndr
          (fun p hp hin => hdis p hp (List.mem_cons_of_mem _ hin))
        dsimp only at hrec
        rw [hrec]
        omega
      · have hfresh : ∀ p ∈ acc.1, (p : String × AssetRecord).1 ≠ symbol :=
          fun p hp he => hdis p hp (he ▸ List.mem_cons_self _ _)
        have hbs : buildStep data mmc acc symbol
            = (acc.1 ++ [(symbol, mkRecord crypto)], acc.2) := by
          unfold buildStep
          simp only [hl]
          rw [if_neg hf, dictInsert_fresh hfresh]
        rw [hbs]
        have hdis' : ∀ p ∈ acc.1 ++ [(symbol, mkRecord crypto)],
            (p : String × AssetRecord).1 ∉ rest := by
          intro p hp
          rcases List.mem_append.mp hp with hp1 | hp1
          · exact fun hin => hdis p hp1 (List.mem_cons_of_mem _ hin)
          · have hpe : p = (symbol, mkRecord crypto) := by simpa using hp1
            rw [hpe]
            exact hns
        have hrec := ih (acc.1 ++ [(symbol, mkRecord crypto)], acc.2) hndr hdis'
        dsimp only at hrec
        rw [hrec]
        simp only [List.length_append, List.length_singleton]
        omega

/-- Claim C5: over a duplicate-free symbol list, the market-cap excluded
count plus the number of records kept equals the number of requested
symbols found in the raw quote response. -/
theorem build_records_count_partition
    (data : QuoteResponse) (symbols : List String) (mmc : Option ℚ)
    (results : List (String × AssetRecord)) (cnt : ℕ)
    (hnd : symbols.Nodup)
    (hrun : get_crypto_data (Except.ok data) symbols mmc = some (results, cnt)) :
    cnt + results.length
      = (symbols.filter (fun s => (data.lookup s).isSome)).length := by
  injection hrun with h
  have h1 : (buildLoop data mmc symbols ([], 0)).1 = results := congrArg Prod.fst h
  have h2 : (buildLoop data mmc symbols ([], 0)).2 = cnt := congrArg Prod.snd h
  have hmain := buildLoop_count data mmc symbols ([], 0) hnd (by intro p hp; simp at hp)
  rw [h1, h2] at hmain
  simpa using hmain

/-- Witness for C5 at a concrete run matching the spec scenario: one
requested symbol found, one absent, nothing excluded. -/
theorem build_records_count_witness :
    0 + ([("BTC", sampleRecord)] : List (String × AssetRecord)).length
      = ((["BTC", "FAKE"] : List String).filter
          (fun s => (([("BTC", sampleInfo)] : QuoteResponse).lookup s).isSome)).length :=
  build_records_count_partition [("BTC", sampleInfo)] ["BTC", "FAKE"] none
    [("BTC", sampleRecord)] 0 (by decide) (by decide)

/-- Claim C4: on a record entering enrichment (present current price, no
derived fields yet), each change_Nm_percent is absent exactly when the
corresponding historical price is absent or zero, and otherwise equals
(current - past) / past * 100; both cases are ordinary values, never an
error. -/
theorem enrich_change_spec
    (hist : String → ℕ → Option ℚ) (symbol : String) (r : AssetRecord) (cp : ℚ)
    (hcp : r.current_price = some cp)
    (h1 : r.change_1m_percent = none) (h3 : r.change_3m_percent = none)
    (h6 : r.change_6m_percent = none) :
    ((enrichRecord hist symbol r).change_1m_percent = none ↔
        ((enrichRecord hist symbol r).price_1_month_ago = none ∨
          (enrichRecord hist symbol r).price_1_month_ago = some 0)) ∧
      (∀ p, (enrichRecord hist symbol r).price_1_month_ago = some p → p ≠ 0 →
        (enrichRecord hist symbol r).change_1m_percent = some ((cp - p) / p * 100)) ∧
      ((enrichRecord hist symbol r).change_3m_percent = none ↔
        ((enrichRecord hist symbol r).price_3_months_ago = none ∨
          (enrichRecord hist symbol r).price_3_months_ago = some 0)) ∧
      (∀ p, (enrichRecord hist symbol r).price_3_months_ago = some p → p ≠ 0 →
        (enrichRecord hist symbol r).change_3m_percent = some ((cp - p) / p * 100)) ∧
      ((enrichRecord hist symbol r).change_6m_percent = none ↔
        ((enrichRecord hist symbol r).price_6_months_ago = none ∨
          (enrichRecord hist symbol r).price_6_months_ago = some 0)) ∧
      (∀ p, (enrichRecord hist symbol r).price_6_months_ago = some p → p ≠ 0 →
        (enrichRecord hist symbol r).change_6m_percent = some ((cp - p) / p * 100)) := by
  refine ⟨?_, ?_, ?_, ?_, ?_, ?_⟩
  · cases hp : hist symbol 30 with
    | none => simp [enrichRecord, hp, truthy, h1]
    | some p =>
      by_cases hz : p = 0
      · subst hz
        simp [enrichRecord, hp, truthy, h1]
      · simp [enrichRecord, hp, truthy, hz]
  · intro p hp hz
    have hp' : hist symbol 30 = some p := by simpa [enrichRecord] using hp
    simp [enrichRecord, hp', truthy, hz, hcp, pctChange]
  · cases hp : hist symbol 90 with
    | none => simp [enrichRecord, hp, truthy, h3]
    | some p =>
      by_cases hz : p = 0
      · subst hz
        simp [enrichRecord, hp, truthy, h3]
      · simp [enrichRecord, hp, truthy, hz]
  · intro p hp hz
    have hp' : hist symbol 90 = some p := by simpa [enrichRecord] using hp
    simp [enrichRecord, hp', truthy, hz, hcp, pctChange]
  · cases hp : hist symbol 180 with
    | none => simp [enrichRecord, hp, truthy, h6]
    | some p =>
      by_cases hz : p = 0
      · subst hz
        simp [enrichRecord, hp, truthy, h6]
      · simp [enrichRecord, hp, truthy, hz]
  · intro p hp hz
    have hp' : hist symbol 180 = some p := by simpa [enrichRecord] using hp
    simp [enrichRecord, hp', truthy, hz, hcp, pctChange]

/-- Witness for C4 at a concrete record: the 30-day price is known, so
the derived one-month change is the percent formula. -/
theorem enrich_change_witness :
    (enrichRecord sampleHist "BTC" sampleRecord).change_1m_percent
      = some (((70000 : ℚ) - 35000) / 35000 * 100) :=
  (enrich_change_spec sampleHist "BTC" sampleRecord 70000 rfl rfl rfl rfl).2.1
    35000 (by decide) (by norm_num)
